import Mathlib

/-!
Shallow embedding of the record-management core of `src/src/waymark_v5.py`
(class `WaymarkApp`).  The in-memory collection `self.all_data` is a Python
list of dicts; each dict is either a waymark entry
`{desc, x, y, z, dimension, created, modified, image}` (all string-valued)
or the world-metadata record `{type: "world_meta", seed}`.  We embed an
item as a two-variant inductive type, the collection as a `List Item`, and
the storage directory as an association list from file names to parsed
collections.  Coordinate fields are parsed with Python `float`; we embed
the parsed values as rationals and `"%.2f"` formatting as rounding to the
nearest hundredth (CPython rounds the underlying binary double with
ties-to-even; no statement below exercises a tie).
-/

inductive Item where
  | waymark (desc x y z dimension created modified image : String)
  | worldMeta (seed : String)
  deriving DecidableEq

/-- `finalize_delete` (waymark_v5.py lines 222-224) runs
`self.all_data.remove(entry)`.  Python `list.remove` deletes the first
element that compares equal to the argument and raises `ValueError` when no
element does; `none` embeds the raised `ValueError`. -/
def removeEntry (entry : Item) : List Item → Option (List Item)
  | [] => none
  | i :: rest =>
    if i = entry then some rest
    else (removeEntry entry rest).map (i :: ·)

/-- `sync_registry_from_file` (lines 150-167) restricted to its effect on
`self.all_data`.  `file = none` embeds a missing backing file: the
`os.path.exists` guard fails and `self.all_data` is left exactly as it was.
`file = some none` embeds a present file whose content `json.load` cannot
parse: the bare `except` resets `self.all_data` to `[]`.
`file = some (some items)` embeds a present file parsing to `items`. -/
def sync_registry_from_file (prev : List Item) (file : Option (Option (List Item))) : List Item :=
  match file with
  | none => prev
  | some none => []
  | some (some items) => items

/-- Python formatting `f"{v:.2f}"`: the value rounded to the nearest
hundredth, rendered with exactly two digits after the point.  (CPython
renders a negative value rounding to zero as "-0.00"; this embedding drops
that sign.  No statement below depends on the sign of a zero.) -/
def format2 (q : ℚ) : String :=
  let n : ℤ := round (q * 100)
  let sign : String := if n < 0 then "-" else ""
  let m : ℕ := n.natAbs
  sign ++ toString (m / 100) ++ "." ++ (if m % 100 < 10 then "0" else "") ++ toString (m % 100)

/-- The numeric value presented by `format2`: the argument rounded to the
nearest hundredth. -/
def round2 (q : ℚ) : ℚ := (round (q * 100) : ℤ) / 100

/-- The dimension-linking logic of `build_waymark_card` (line 178):
`cx, cz = (f"{(x/8):.2f}", f"{(z/8):.2f}") if dim == "overworld" else
(f"{(x*8):.2f}", f"{(z*8):.2f}")`, over the parsed coordinate values. -/
def linked_coords (dim : String) (x z : ℚ) : String × String :=
  if dim = "overworld" then (format2 (x / 8), format2 (z / 8))
  else (format2 (x * 8), format2 (z * 8))

/-- The coordinate texts of the card (lines 185-187) together with the
linked coordinates of line 178: `X:`, `Y:`, `Z:` headline texts and the
link label values.  Only the link pair depends on the dimension. -/
def build_waymark_card_texts (dim : String) (x y z : ℚ) :
    (String × String × String) × (String × String) :=
  (("X: " ++ format2 x, "Y: " ++ format2 y, "Z: " ++ format2 z), linked_coords dim x z)

/-- Overworld-to-Nether transform as presented: divide by 8, format to two
decimal places; `round2` is the numeric value of the formatted label. -/
def overworld_to_nether (v : ℚ) : ℚ := round2 (v / 8)

/-- Nether-to-Overworld transform as presented: multiply by 8, format to
two decimal places. -/
def nether_to_overworld (v : ℚ) : ℚ := round2 (v * 8)

/-- Whether an item is the `world_meta` record, i.e. Python
`i.get("type") == "world_meta"` (a waymark dict has no `type` key). -/
def isMeta : Item → Bool
  | Item.worldMeta _ => true
  | Item.waymark _ _ _ _ _ _ _ _ => false

/-- Number of `world_meta` items in a collection. -/
def countMeta : List Item → ℕ
  | [] => 0
  | i :: rest => (if isMeta i then 1 else 0) + countMeta rest

/-- The persistence branch of `toggle_seed_security` (lines 311-314):
`next((i for i in self.all_data if i.get("type") == "world_meta"), None)`
finds the first metadata item; when found its `seed` value is updated in
place (same position), otherwise a fresh metadata dict is appended at the
end of the collection. -/
def setSeed (seedValue : String) : List Item → List Item
  | [] => [Item.worldMeta seedValue]
  | Item.worldMeta _ :: rest => Item.worldMeta seedValue :: rest
  | i :: rest => i :: setSeed seedValue rest

/-- The storage directory: one backing file per world, keyed by file name.
`json.dump(..., open(path, "w"))` overwrites an existing file in place and
creates a missing one at the end. -/
def writeFile (name : String) (content : List Item) :
    List (String × List Item) → List (String × List Item)
  | [] => [(name, content)]
  | (n, c) :: rest =>
    if n = name then (name, content) :: rest
    else (n, c) :: writeFile name content rest

/-- Reading a backing file from the storage directory; `none` embeds a
missing file. -/
def readFile (name : String) : List (String × List Item) → Option (List Item)
  | [] => none
  | (n, c) :: rest => if n = name then some c else readFile name rest

/-- Python `str.isspace` over the ASCII whitespace characters (space, tab,
newline, carriage return, vertical tab, form feed). -/
def pyIsSpace (c : Char) : Bool :=
  c == ' ' || c == '\t' || c == '\n' || c == '\r' || c == '\x0b' || c == '\x0c'

/-- Python `str.strip()`: remove leading and trailing whitespace. -/
def pyStrip (s : List Char) : List Char :=
  ((s.dropWhile pyIsSpace).reverse.dropWhile pyIsSpace).reverse

/-- Python `str.replace(" ", "_")`: the pattern is the single space
character, so the call rewrites every space (and no other character,
whitespace or not) to an underscore. -/
def replaceSpaces (s : List Char) : List Char :=
  s.map fun c => if c = ' ' then '_' else c

/-- The name sanitisation of `execute_world_creation` (line 323):
`self.ui_new_world_field.value.strip().replace(" ", "_")` — strip first,
then replace spaces. -/
def sanitizeName (raw : String) : String :=
  String.mk (replaceSpaces (pyStrip raw.data))

/-- Modelled from the spec (for comparison with `sanitizeName`): the spec
says the raw name is trimmed and its whitespace replaced with underscores,
i.e. every whitespace character of the trimmed name becomes `_`. -/
def sanitizeNameSpec (raw : String) : String :=
  String.mk ((pyStrip raw.data).map fun c => if pyIsSpace c then '_' else c)

/-- `execute_world_creation` (lines 322-327) restricted to its effect on
the storage directory: when the sanitised name is truthy (nonempty) an
empty collection is dumped to `<name>.json` (overwriting any existing file
of that name); otherwise nothing is written. -/
def execute_world_creation (raw : String) (fs : List (String × List Item)) :
    List (String × List Item) :=
  let name := sanitizeName raw
  if name = "" then fs else writeFile (name ++ ".json") [] fs

/-- Python `value or "0"` on a text-field value (lines 254): the empty
(falsy) string defaults to `"0"`. -/
def orZero (s : String) : String := if s = "" then "0" else s

/-- The `new_log` dict of `process_new_entry` (lines 252-257): `created`
and `modified` are both the `now` timestamp, empty coordinate fields
default to `"0"`, `image` is the stored image path (`""` when no
screenshot was attached). -/
def mkEntry (desc x y z dim now image : String) : Item :=
  Item.waymark desc (orZero x) (orZero y) (orZero z) dim now now image

/-- `process_new_entry` (lines 241-262) restricted to the collection and
the storage directory.  An empty description aborts before anything is
touched (`if not self.ui_desc_in.value: return`); otherwise the new entry
is prepended (`self.all_data.insert(0, new_log)`) and the collection is
saved to the current world's backing file. -/
def process_new_entry (world desc x y z dim now image : String)
    (data : List Item) (fs : List (String × List Item)) :
    List Item × List (String × List Item) :=
  if desc = "" then (data, fs)
  else
    let data2 := mkEntry desc x y z dim now image :: data
    (data2, writeFile (world ++ ".json") data2 fs)

/-- Python substring containment `needle in haystack`, over character
lists. -/
def containsSub (needle : List Char) : List Char → Bool
  | [] => needle.isEmpty
  | c :: rest => needle.isPrefixOf (c :: rest) || containsSub needle rest

/-- Python `str.lower()` over the characters of a string (ASCII case
mapping; the descriptions and search terms in play are ASCII). -/
def pyToLower (s : List Char) : List Char := s.map Char.toLower

/-- The per-item predicate of `apply_search_filter` (line 355):
`log.get("type") != "world_meta" and term in log['desc'].lower()`, with
the search term lowercased (line 352). -/
def searchMatch (term : String) : Item → Bool
  | Item.worldMeta _ => false
  | Item.waymark desc _ _ _ _ _ _ _ => containsSub (pyToLower term.data) (pyToLower desc.data)

/-- `apply_search_filter` (lines 351-357) restricted to the sequence of
entries appended to the registry view, in loop order. -/
def apply_search_filter (term : String) (data : List Item) : List Item :=
  data.filter (searchMatch term)

/-- `commit_changes` (lines 273-284) on the target entry: `entry.update`
overwrites the keys `desc, x, y, z, dimension, modified, image` and leaves
all other keys — in particular `created` — untouched.  The edit dialog is
only ever opened from a waymark card, so the target is a waymark entry. -/
def commit_changes (nd nx ny nz ndim now nimg : String) : Item → Item
  | Item.waymark _ _ _ _ _ created _ _ =>
    Item.waymark nd nx ny nz ndim created now nimg
  | m => m

/-- The edit performed on the live collection: the dict object at position
`i` is mutated in place; no other element of the list is touched. -/
def editEntryAt (nd nx ny nz ndim now nimg : String) : ℕ → List Item → List Item
  | _, [] => []
  | 0, e :: rest => commit_changes nd nx ny nz ndim now nimg e :: rest
  | n + 1, e :: rest => e :: editEntryAt nd nx ny nz ndim now nimg n rest

/-! ### Helper lemmas -/

theorem removeEntry_of_not_mem (e : Item) : ∀ d : List Item, e ∉ d → removeEntry e d = none := by
  intro d
  induction d with
  | nil => intro _; rfl
  | cons i rest ih =>
    intro h
    have hi : i ≠ e := fun hie => h (hie ▸ List.mem_cons_self i rest)
    have hr : e ∉ rest := fun hm => h (List.mem_cons_of_mem i hm)
    simp [removeEntry, hi, ih hr]

theorem removeEntry_append (e : Item) (post : List Item) :
    ∀ pre : List Item, e ∉ pre → removeEntry e (pre ++ e :: post) = some (pre ++ post) := by
  intro pre
  induction pre with
  | nil => intro _; simp [removeEntry]
  | cons a l ih =>
    intro h
    have ha : a ≠ e := fun hae => h (hae ▸ List.mem_cons_self a l)
    have hl : e ∉ l := fun hm => h (List.mem_cons_of_mem a hm)
    simp [removeEntry, ha, ih hl]

theorem countMeta_setSeed (s : String) : ∀ d : List Item, countMeta (setSeed s d) = max (countMeta d) 1 := by
  intro d
  induction d with
  | nil => simp [setSeed, countMeta, isMeta]
  | cons i rest ih =>
    cases i with
    | worldMeta sd => simp [setSeed, countMeta, isMeta]
    | waymark d1 d2 d3 d4 d5 d6 d7 d8 =>
      simp [setSeed, countMeta, isMeta, ih]

theorem readFile_writeFile_self (name : String) (content : List Item) :
    ∀ fs : List (String × List Item), readFile name (writeFile name content fs) = some content := by
  intro fs
  induction fs with
  | nil => simp [writeFile, readFile]
  | cons p rest ih =>
    obtain ⟨n, c⟩ := p
    by_cases h : n = name
    · simp [writeFile, readFile, h]
    · simp [writeFile, readFile, h, ih]

theorem readFile_writeFile_other (name other : String) (content : List Item)
    (hne : other ≠ name) :
    ∀ fs : List (String × List Item),
      readFile other (writeFile name content fs) = readFile other fs := by
  intro fs
  induction fs with
  | nil => simp [writeFile, readFile, Ne.symm hne]
  | cons p rest ih =>
    obtain ⟨n, c⟩ := p
    by_cases h : n = name
    · subst h
      simp [writeFile, readFile, Ne.symm hne]
    · by_cases h2 : n = other
      · subst h2
        simp [writeFile, readFile, h]
      · simp [writeFile, readFile, h, h2, ih]

theorem containsSub_iff (needle : List Char) :
    ∀ hay : List Char, containsSub needle hay = true ↔ ∃ l r, hay = l ++ needle ++ r := by
  intro hay
  induction hay with
  | nil =>
    simp only [containsSub, List.isEmpty_iff]
    constructor
    · intro hn; exact ⟨[], [], by simp [hn]⟩
    · rintro ⟨l, r, hlr⟩
      rcases List.append_eq_nil.mp (List.append_eq_nil.mp hlr.symm).1 with ⟨-, h2⟩
      exact h2
  | cons c rest ih =>
    simp only [containsSub, Bool.or_eq_true, ih]
    constructor
    · rintro (hpre | ⟨l, r, hlr⟩)
      · obtain ⟨t, ht⟩ := List.isPrefixOf_iff_prefix.mp hpre
        exact ⟨[], t, by simp [← ht]⟩
      · exact ⟨c :: l, r, by simp [hlr]⟩
    · rintro ⟨l, r, hlr⟩
      cases l with
      | nil =>
        left
        exact List.isPrefixOf_iff_prefix.mpr ⟨r, by simpa using hlr.symm⟩
      | cons a l2 =>
        right
        refine ⟨l2, r, ?_⟩
        have := hlr
        simp only [List.cons_append] at this
        exact (List.cons.injEq _ _ _ _ ▸ this).2 ▸ rfl

theorem format2_eq (q : ℚ) (n : ℤ) (h : round (q * 100) = n) :
    format2 q = (if n < 0 then "-" else "") ++ toString (n.natAbs / 100) ++ "."
      ++ (if n.natAbs % 100 < 10 then "0" else "") ++ toString (n.natAbs % 100) := by
  unfold format2
  rw [h]

theorem abs_round2_sub (q : ℚ) : |round2 q - q| ≤ 1 / 200 := by
  have h := abs_sub_round (q * 100)
  have hrw : round2 q - q = (((round (q * 100) : ℤ) : ℚ) - q * 100) / 100 := by
    unfold round2; ring
  rw [hrw, abs_div]
  rw [show |(100 : ℚ)| = 100 by norm_num, abs_sub_comm]
  linarith

theorem format2_congr (q q' : ℚ) (h : round2 q = round2 q') : format2 q = format2 q' := by
  have hn : round (q * 100) = round (q' * 100) := by
    have h2 : ((round (q * 100) : ℤ) : ℚ) = ((round (q' * 100) : ℤ) : ℚ) := by
      unfold round2 at h
      field_simp at h
      exact_mod_cast h
    exact_mod_cast h2
  unfold format2
  rw [hn]

theorem round_trip_bound (v : ℚ) :
    |nether_to_overworld (overworld_to_nether v) - v| ≤ 9 / 200 := by
  unfold nether_to_overworld overworld_to_nether
  have h1 := abs_round2_sub (v / 8)
  have h2 := abs_round2_sub (round2 (v / 8) * 8)
  have h3 : |round2 (v / 8) * 8 - v| = 8 * |round2 (v / 8) - v / 8| := by
    rw [show round2 (v / 8) * 8 - v = 8 * (round2 (v / 8) - v / 8) by ring, abs_mul]
    rw [show |(8 : ℚ)| = 8 by norm_num]
  have h4 := abs_sub_le (round2 (round2 (v / 8) * 8)) (round2 (v / 8) * 8) v
  rw [h3] at h4
  linarith

/-! ### Claims -/

/-- C1 counterexample: the claim says deleting an entry that is not present
is a silent no-op leaving the collection unchanged; concretely, deleting
`worldMeta "s"` from the empty collection would then return the unchanged
collection `some []`, but `list.remove` raises `ValueError` (`none`). -/
theorem C1_counterexample :
    removeEntry (Item.worldMeta "s") [] = none ∧
    removeEntry (Item.worldMeta "s") [] ≠ some [] :=
  ⟨rfl, by decide⟩

/-- C1 (amended): `Delete(entry)` removes the first occurrence of the entry
from the collection when one is present (all other items keep their
relative order); when the entry is not present, `list.remove` raises
`ValueError` — the collection is not modified, but the failure is an
exception, not a silent no-op, so deletion is not idempotent. -/
theorem C1_delete_first_or_raises (d : List Item) (e : Item) :
    (e ∉ d → removeEntry e d = none) ∧
    (∀ pre post, d = pre ++ e :: post → e ∉ pre →
      removeEntry e d = some (pre ++ post)) := by
  refine ⟨removeEntry_of_not_mem e d, ?_⟩
  rintro pre post rfl hp
  exact removeEntry_append e post pre hp

/-- C1 witness: deleting a present entry drops exactly its first
occurrence; deleting from the empty collection raises. -/
theorem C1_delete_witness :
    removeEntry (Item.worldMeta "s") [Item.worldMeta "x", Item.worldMeta "s"]
      = some [Item.worldMeta "x"] ∧
    removeEntry (Item.worldMeta "s") [] = none := by
  constructor
  · have h := (C1_delete_first_or_raises
      [Item.worldMeta "x", Item.worldMeta "s"] (Item.worldMeta "s")).2
      [Item.worldMeta "x"] [] rfl (by decide)
    simpa using h
  · exact (C1_delete_first_or_raises [] (Item.worldMeta "s")).1 (by decide)

/-- C2 counterexample: the claim says a missing backing file yields an
empty collection; concretely, syncing with in-memory collection
`[worldMeta "seed"]` against a missing file leaves the collection as
`[worldMeta "seed"]`, not `[]` — the `os.path.exists` guard skips the
reload and the previous world's data stays cached. -/
theorem C2_counterexample :
    sync_registry_from_file [Item.worldMeta "seed"] none = [Item.worldMeta "seed"] ∧
    sync_registry_from_file [Item.worldMeta "seed"] none ≠ [] :=
  ⟨rfl, by decide⟩

/-- C2 (amended): Load never raises; on a malformed (unparsable) file the
collection becomes empty, on a successfully parsed file it becomes the
parsed content, and on a missing file the previous in-memory collection is
kept unchanged (not reset to empty). -/
theorem C2_load_policy (prev items : List Item) :
    sync_registry_from_file prev (some none) = [] ∧
    sync_registry_from_file prev (some (some items)) = items ∧
    sync_registry_from_file prev none = prev :=
  ⟨rfl, rfl, rfl⟩

/-- C3: for parsed coordinates the linked values are `x/8`, `z/8` formatted
to two decimal places in the overworld and `x*8`, `z*8` in the nether; the
formatted string is determined by the value rounded to the nearest
hundredth, which is within 1/200 of the exact quotient/product; the card's
Y text does not depend on the dimension; and concretely x=100, z=-200 in
the overworld yields "12.50" and "-25.00". -/
theorem C3_linked_coords (x z : ℚ) :
    linked_coords "overworld" x z = (format2 (x / 8), format2 (z / 8)) ∧
    linked_coords "nether" x z = (format2 (x * 8), format2 (z * 8)) ∧
    (∀ q q' : ℚ, round2 q = round2 q' → format2 q = format2 q') ∧
    (∀ q : ℚ, |round2 q - q| ≤ 1 / 200) ∧
    (∀ y : ℚ, ∀ dim dim' : String,
      (build_waymark_card_texts dim x y z).1.2.1
        = (build_waymark_card_texts dim' x y z).1.2.1) ∧
    linked_coords "overworld" 100 (-200) = ("12.50", "-25.00") := by
  refine ⟨rfl, ?_, fun q q' h => format2_congr q q' h, fun q => abs_round2_sub q,
    fun y dim dim' => rfl, ?_⟩
  · unfold linked_coords
    rw [if_neg (by decide)]
  · have h1 : round ((100 : ℚ) / 8 * 100) = 1250 := by rw [round_eq]; norm_num
    have h2 : round ((-200 : ℚ) / 8 * 100) = -2500 := by rw [round_eq]; norm_num
    have e1 : linked_coords "overworld" 100 (-200)
        = (format2 ((100 : ℚ) / 8), format2 ((-200 : ℚ) / 8)) := rfl
    rw [e1, format2_eq ((100 : ℚ) / 8) 1250 h1,
      format2_eq ((-200 : ℚ) / 8) (-2500) h2]
    decide

/-- C3 witness: the congruence conjunct applied at 100/8 = 25/2, and the
concrete overworld example. -/
theorem C3_linked_witness :
    format2 ((100 : ℚ) / 8) = format2 (25 / 2) ∧
    linked_coords "overworld" 100 (-200) = ("12.50", "-25.00") :=
  ⟨(C3_linked_coords 100 (-200)).2.2.1 (100 / 8) (25 / 2) (by norm_num),
   (C3_linked_coords 100 (-200)).2.2.2.2.2⟩

/-- C4 counterexample: at x = 0.03, dividing by 8 gives 0.00375, which
formats to "0.00"; multiplying the formatted value by 8 and formatting
again gives 0.00, which differs from the original by 0.03 > 0.01 — the
formatted round trip is not accurate to 0.01. -/
theorem C4_counterexample :
    ¬ |nether_to_overworld (overworld_to_nether (3 / 100)) - 3 / 100| ≤ 1 / 100 := by
  have h1 : overworld_to_nether (3 / 100) = 0 := by
    unfold overworld_to_nether round2
    rw [show ((3 : ℚ) / 100) / 8 * 100 = 3 / 8 by norm_num, round_eq]
    norm_num
  have h2 : nether_to_overworld 0 = 0 := by
    unfold nether_to_overworld round2
    norm_num [round_eq]
  rw [h1, h2, zero_sub, abs_neg, abs_of_nonneg (by norm_num : (0 : ℚ) ≤ 3 / 100)]
  norm_num

/-- C4 (amended): the Overworld-to-Nether transform followed by the
Nether-to-Overworld transform, each result formatted to two decimal
places, returns each coordinate of the pair to within 9/200 = 0.045 (each
formatting rounds by at most 0.005 and the multiplication by 8 scales the
first rounding error by 8); the claimed 0.01 tolerance does not hold. -/
theorem C4_round_trip_bound (x z : ℚ) :
    |nether_to_overworld (overworld_to_nether x) - x| ≤ 9 / 200 ∧
    |nether_to_overworld (overworld_to_nether z) - z| ≤ 9 / 200 :=
  ⟨round_trip_bound x, round_trip_bound z⟩

/-- C5: starting from a collection with at most one metadata item, any
sequence of SetSeed operations leaves at most one metadata item in the
collection: each call updates the first existing `world_meta` item in place
and appends a new one only when none exists. -/
theorem C5_seed_singleton (d : List Item) (seeds : List String)
    (h : countMeta d ≤ 1) :
    countMeta (seeds.foldl (fun acc s => setSeed s acc) d) ≤ 1 := by
  induction seeds generalizing d with
  | nil => exact h
  | cons s rest ih =>
    simp only [List.foldl_cons]
    refine ih (setSeed s d) ?_
    rw [countMeta_setSeed]
    exact max_le h le_rfl

/-- C5 witness: two SetSeed calls on an initially empty collection leave at
most one metadata item. -/
theorem C5_seed_witness :
    countMeta ((["a", "b"] : List String).foldl (fun acc s => setSeed s acc) []) ≤ 1 :=
  C5_seed_singleton [] ["a", "b"] (by decide)

/-- C6: a create with a nonempty description prepends the new entry — the
resulting collection is the new entry followed by the previous collection
unchanged — so after Create(A) then Create(B) the collection begins with
B, then A, then the previous items in order. -/
theorem C6_prepend (world descA xA yA zA dimA nowA imgA descB xB yB zB dimB nowB imgB : String)
    (data : List Item) (fs : List (String × List Item))
    (hA : descA ≠ "") (hB : descB ≠ "") :
    (process_new_entry world descA xA yA zA dimA nowA imgA data fs).1
      = mkEntry descA xA yA zA dimA nowA imgA :: data ∧
    (process_new_entry world descB xB yB zB dimB nowB imgB
        (process_new_entry world descA xA yA zA dimA nowA imgA data fs).1
        (process_new_entry world descA xA yA zA dimA nowA imgA data fs).2).1
      = mkEntry descB xB yB zB dimB nowB imgB
          :: mkEntry descA xA yA zA dimA nowA imgA :: data := by
  constructor
  · simp [process_new_entry, hA]
  · simp [process_new_entry, hA, hB]

/-- C6 witness: Create("A") then Create("B") on the empty collection yields
the collection [B-entry, A-entry]. -/
theorem C6_prepend_witness :
    (process_new_entry "w" "B" "1" "2" "3" "overworld" "t2" ""
        (process_new_entry "w" "A" "1" "2" "3" "overworld" "t1" "" [] []).1
        (process_new_entry "w" "A" "1" "2" "3" "overworld" "t1" "" [] []).2).1
      = [mkEntry "B" "1" "2" "3" "overworld" "t2" "",
         mkEntry "A" "1" "2" "3" "overworld" "t1" ""] :=
  (C6_prepend "w" "A" "1" "2" "3" "overworld" "t1" "" "B" "1" "2" "3" "overworld" "t2" ""
    [] [] (by decide) (by decide)).2

/-- C7: the search keeps exactly the waymark entries whose lowercased
description contains the lowercased term as a substring — metadata items
never match — and the result is a sublist of the collection (original
relative order and multiplicities); searching "lava" over "Lava Pool",
"Cave", a metadata item and "lava farm" returns exactly the first and
last waymark entries, in order. -/
theorem C7_search (term : String) (data : List Item) :
    apply_search_filter term data = data.filter (searchMatch term) ∧
    (∀ d x y z dim c m i,
      searchMatch term (Item.waymark d x y z dim c m i) = true ↔
        ∃ l r, pyToLower d.data = l ++ pyToLower term.data ++ r) ∧
    (∀ s, searchMatch term (Item.worldMeta s) = false) ∧
    List.Sublist (apply_search_filter term data) data ∧
    apply_search_filter "lava"
        [Item.waymark "Lava Pool" "10" "64" "10" "overworld" "t" "t" "",
         Item.waymark "Cave" "0" "0" "0" "overworld" "t" "t" "",
         Item.worldMeta "123",
         Item.waymark "lava farm" "5" "70" "5" "nether" "t" "t" ""]
      = [Item.waymark "Lava Pool" "10" "64" "10" "overworld" "t" "t" "",
         Item.waymark "lava farm" "5" "70" "5" "nether" "t" "t" ""] := by
  refine ⟨rfl, ?_, fun s => rfl, List.filter_sublist data, ?_⟩
  · intro d x y z dim c m i
    exact containsSub_iff (pyToLower term.data) (pyToLower d.data)
  · decide

/-- C7 witness: the metadata-exclusion conjunct applied to a concrete
metadata item. -/
theorem C7_search_witness : searchMatch "lava" (Item.worldMeta "123") = false :=
  (C7_search "lava" []).2.2.1 "123"

/-- C8: a create with an empty description is rejected as a no-op — the
collection and the storage directory are both returned unchanged, and no
error is raised (the embedding is total). -/
theorem C8_empty_desc_noop (world x y z dim now img : String)
    (data : List Item) (fs : List (String × List Item)) :
    process_new_entry world "" x y z dim now img data fs = (data, fs) := rfl

/-- C9 counterexample: the claim says whitespace is replaced with
underscores, but the code only replaces the space character: for the raw
name containing an interior tab the sanitised name keeps the tab, differs
from the spec-described sanitisation, and no file is created under the
spec-described name. -/
theorem C9_counterexample :
    sanitizeName "cave\thub" = "cave\thub" ∧
    sanitizeNameSpec "cave\thub" = "cave_hub" ∧
    sanitizeName "cave\thub" ≠ sanitizeNameSpec "cave\thub" ∧
    readFile "cave_hub.json" (execute_world_creation "cave\thub" []) = none :=
  ⟨by decide, by decide, by decide, by decide⟩

/-- C9 (amended): CreateWorld first strips leading/trailing whitespace and
then replaces space characters (U+0020 only, not other whitespace) with
underscores; if the resulting name is empty it is a silent no-op creating
no file, otherwise it writes a new empty collection to `<name>.json`,
overwriting any existing file of that name and leaving every other file
unchanged. -/
theorem C9_create_world (raw : String) (fs : List (String × List Item)) :
    sanitizeName raw = String.mk (replaceSpaces (pyStrip raw.data)) ∧
    (sanitizeName raw = "" → execute_world_creation raw fs = fs) ∧
    (sanitizeName raw ≠ "" →
      readFile (sanitizeName raw ++ ".json") (execute_world_creation raw fs) = some [] ∧
      ∀ other, other ≠ sanitizeName raw ++ ".json" →
        readFile other (execute_world_creation raw fs) = readFile other fs) := by
  refine ⟨rfl, ?_, ?_⟩
  · intro h
    simp [execute_world_creation, h]
  · intro h
    constructor
    · simp only [execute_world_creation]
      rw [if_neg h]
      exact readFile_writeFile_self _ _ fs
    · intro other ho
      simp only [execute_world_creation]
      rw [if_neg h]
      exact readFile_writeFile_other _ _ _ ho fs

/-- C9 witness: creating " My World " writes an empty collection under
"My_World.json". -/
theorem C9_create_witness :
    sanitizeName " My World " = "My_World" ∧
    readFile "My_World.json" (execute_world_creation " My World " []) = some [] := by
  constructor
  · decide
  · have h := ((C9_create_world " My World " []).2.2 (by decide)).1
    have e : sanitizeName " My World " ++ ".json" = "My_World.json" := by decide
    rw [e] at h
    exact h

/-- C10: editing the waymark at a given position overwrites exactly its
desc, x, y, z, dimension, image and modified fields (modified becomes the
current timestamp `now`), keeps the entry's created timestamp, and leaves
every item before and after the position unchanged. -/
theorem C10_edit_frame (nd nx ny nz ndim now nimg d0 x0 y0 z0 dim0 c0 m0 i0 : String)
    (pre post : List Item) :
    editEntryAt nd nx ny nz ndim now nimg pre.length
        (pre ++ Item.waymark d0 x0 y0 z0 dim0 c0 m0 i0 :: post)
      = pre ++ Item.waymark nd nx ny nz ndim c0 now nimg :: post := by
  induction pre with
  | nil => rfl
  | cons a l ih =>
    simp only [List.cons_append, List.length_cons, editEntryAt, List.append_eq]
    rw [ih]
